import Mathlib

/-!
Verification of the turn-taking orchestration layer of the ai-conversation-agent
repository. Each component of the source (SpeechDetector, AudioRecorder,
AudioPlayer, ConversationSocketClient, the socket route handler, and the
ConversationContext coordinator) is shallowly embedded as executable Lean
definitions, and the specified properties are settled against them.
-/

/-- Embedding of the JavaScript blank test `text.trim() === ''` used by the
source at src/app/api/socket/route.ts line 50 and
src/lib/ConversationContext.tsx line 500: a string trims to the empty
string exactly when every character is whitespace. -/
def blankString (s : String) : Bool := s.data.all Char.isWhitespace

namespace SockClient

/-- State of `ConversationSocketClient` (src/lib/socketClient.ts): the
`socket` field (null or not), the `isConnected` flag, and a count of
backend exchanges currently in flight (each accepted `sendAudioChunk`
emits one `audioChunk` message to the server, starting one exchange). -/
structure ClientState where
  socketExists : Bool
  isConnected : Bool
  inFlight : Nat
deriving DecidableEq, Repr

/-- Embedding of `ConversationSocketClient.sendAudioChunk`
(src/lib/socketClient.ts lines 79-93): if the socket is null or not
connected, log an error and return false; otherwise emit the chunk
(starting one more backend exchange) and return true.  The method
performs no tracking of pending sends. -/
def sendAudioChunk (s : ClientState) : ClientState × Bool :=
  if !s.socketExists || !s.isConnected then (s, false)
  else ({ s with inFlight := s.inFlight + 1 }, true)

end SockClient

/-- C1 counterexample: in the state where the socket is connected and one
previous send has not yet completed (inFlight = 1), `sendAudioChunk`
returns true (not false), emits no error, and starts a second backend
exchange (inFlight becomes 2).  This refutes the claim that a send issued
while a previous send is pending is rejected. -/
theorem c1_counterexample :
    (SockClient.sendAudioChunk ⟨true, true, 1⟩).2 = true ∧
    (SockClient.sendAudioChunk ⟨true, true, 1⟩).1.inFlight = 2 ∧
    ¬ ((SockClient.sendAudioChunk ⟨true, true, 1⟩).2 = false ∨
       (SockClient.sendAudioChunk ⟨true, true, 1⟩).1.inFlight ≤ 1) := by
  decide

/-- C1 amended: `sendAudioChunk` rejects (returns false, starting no
exchange) exactly when the socket is null or not connected; whenever the
socket is connected it accepts the send and starts one more backend
exchange, regardless of how many previous sends are still in flight. -/
theorem c1_send_no_single_flight (s : SockClient.ClientState) :
    (SockClient.sendAudioChunk s).2 = (s.socketExists && s.isConnected) ∧
    (SockClient.sendAudioChunk s).1.inFlight =
      (if s.socketExists && s.isConnected then s.inFlight + 1 else s.inFlight) := by
  rcases s with ⟨se, ic, n⟩
  cases se <;> cases ic <;> simp [SockClient.sendAudioChunk]

namespace ServerRoute

/-- Events the socket server emits to the client
(src/app/api/socket/route.ts, `socket.emit` calls). -/
inductive SEvent where
  | transcription (text : String)
  | audioResponse (audio : Nat)
  | textResponse (text : String)
  | errorEvt
deriving DecidableEq, Repr

/-- Downstream requests the handler issues to the AI provider:
a chat-completion (generation) request and a speech (synthesis) request. -/
inductive Req where
  | chatReq
  | ttsReq
deriving DecidableEq, Repr

/-- Embedding of the `socket.on audioChunk` handler
(src/app/api/socket/route.ts lines 33-85).  The three backend calls
(transcription, chat completion, speech synthesis) are oracles passed as
`Except` values; the handler returns the list of emitted events in
emission order together with the list of downstream requests issued.
On a blank transcription the handler returns before emitting anything
(line 50); any thrown error lands in the catch block, which emits the
single string error event (line 83).  On full success the emission order
in the source is: `transcription` (line 56), `audioResponse` (line 79),
`textResponse` (line 80). -/
def audioChunkRun (tr : Except Unit String) (chat : Except Unit String)
    (tts : Except Unit Nat) : List SEvent × List Req :=
  match tr with
  | .error _ => ([.errorEvt], [])
  | .ok userText =>
    if blankString userText then ([], [])
    else
      match chat with
      | .error _ => ([.transcription userText, .errorEvt], [.chatReq])
      | .ok reply =>
        match tts with
        | .error _ => ([.transcription userText, .errorEvt], [.chatReq, .ttsReq])
        | .ok audio =>
          ([.transcription userText, .audioResponse audio, .textResponse reply],
           [.chatReq, .ttsReq])

/-- Selector predicates on events. -/
def isTranscription : SEvent → Bool
  | .transcription _ => true
  | _ => false

def isAudioResponse : SEvent → Bool
  | .audioResponse _ => true
  | _ => false

def isTextResponse : SEvent → Bool
  | .textResponse _ => true
  | _ => false

/-- Messages the client-side coordinator appends in response to server
events: `onTranscription` appends a user message and `onTextResponse`
appends an assistant message (src/lib/ConversationContext.tsx lines
324-330); no other event appends a message. -/
def clientMessages (evs : List SEvent) : List (Bool × String) :=
  evs.filterMap fun e =>
    match e with
    | .transcription t => some (true, t)
    | .textResponse t => some (false, t)
    | _ => none

end ServerRoute

/-- C3 counterexample: for the successfully processed utterance
transcribed as "hello" with reply "hi there", the handler emits
`[transcription, audioResponse, textResponse]`, so the textResponse event
does not precede the audioResponse event: the claimed relative order
(transcription, then textResponse, then audioResponse) is false. -/
theorem c3_counterexample :
    (ServerRoute.audioChunkRun (.ok "hello") (.ok "hi there") (.ok 7)).1 =
      [.transcription "hello", .audioResponse 7, .textResponse "hi there"] ∧
    ¬ ((ServerRoute.audioChunkRun (.ok "hello") (.ok "hi there") (.ok 7)).1.findIdx
          ServerRoute.isTextResponse <
        (ServerRoute.audioChunkRun (.ok "hello") (.ok "hi there") (.ok 7)).1.findIdx
          ServerRoute.isAudioResponse) := by
  decide

/-- C3 amended: for every successfully processed non-blank utterance, the
streaming handler emits exactly the three events in the relative order
transcription first, then audioResponse, then textResponse. -/
theorem c3_event_order (t reply : String) (audio : Nat) (h : blankString t = false) :
    (ServerRoute.audioChunkRun (.ok t) (.ok reply) (.ok audio)).1 =
      [.transcription t, .audioResponse audio, .textResponse reply] := by
  simp [ServerRoute.audioChunkRun, h]

/-- C3 amended, witness: instantiated at the utterance "hello". -/
theorem c3_event_order_witness :
    blankString "hello" = false ∧
    (ServerRoute.audioChunkRun (.ok "hello") (.ok "hi") (.ok 3)).1 =
      [.transcription "hello", .audioResponse 3, .textResponse "hi"] :=
  ⟨by decide, c3_event_order "hello" "hi" 3 (by decide)⟩

/-- C4: an utterance whose transcription is empty or whitespace-only
causes the handler to return early: no event is emitted (in particular no
transcription event and no error event), no generation or synthesis
request is issued downstream, and consequently the client appends zero
messages. -/
theorem c4_blank_transcription_noop (t : String) (chat : Except Unit String)
    (tts : Except Unit Nat) (h : blankString t = true) :
    ServerRoute.audioChunkRun (.ok t) chat tts = ([], []) ∧
    ServerRoute.clientMessages (ServerRoute.audioChunkRun (.ok t) chat tts).1 = [] := by
  refine ⟨?_, ?_⟩ <;> simp [ServerRoute.audioChunkRun, h, ServerRoute.clientMessages]

/-- C4 witness: instantiated at the whitespace-only transcription " ". -/
theorem c4_blank_transcription_noop_witness :
    blankString " " = true ∧
    (ServerRoute.audioChunkRun (.ok " ") (.ok "x") (.ok 0) = ([], []) ∧
     ServerRoute.clientMessages (ServerRoute.audioChunkRun (.ok " ") (.ok "x") (.ok 0)).1 = []) :=
  ⟨by decide, c4_blank_transcription_noop " " (.ok "x") (.ok 0) (by decide)⟩

namespace Session

/-- Resource state of `SpeechDetector` (src/lib/audioUtils.ts lines
69-184): the pending silence timer, the microphone stream, the media
source node, the audio context, the analyser node, and the internal
speaking flag. -/
structure DetectorRes where
  silenceTimer : Option Nat
  streamHeld : Bool
  micConnected : Bool
  contextOpen : Bool
  analyserSet : Bool
  speaking : Bool
deriving DecidableEq, Repr

/-- Embedding of `SpeechDetector.stop` (src/lib/audioUtils.ts lines
160-183): cancel the timer, stop the stream tracks, disconnect the
microphone, close the audio context, drop the analyser, reset the
speaking flag.  Each branch is guarded by a null check in the source, but
the resulting state is fully cleared in every case. -/
def detectorStop (_ : DetectorRes) : DetectorRes :=
  { silenceTimer := none, streamHeld := false, micConnected := false,
    contextOpen := false, analyserSet := false, speaking := false }

/-- State of `AudioRecorder` (src/lib/audioUtils.ts lines 3-66): whether
a MediaRecorder object exists, the recording flag, the buffered chunks,
and the microphone stream handle. -/
structure RecorderState where
  hasRecorder : Bool
  isRecording : Bool
  audioChunks : List Nat
  streamHeld : Bool
deriving DecidableEq, Repr

/-- Embedding of `AudioRecorder.stopRecording` (src/lib/audioUtils.ts
lines 34-50): when no MediaRecorder exists or the recorder is not
recording, resolve null leaving the state untouched; otherwise finalize
the buffered chunks into one blob, release the stream
(`stopMediaTracks`), clear the recording flag, and resolve the blob. -/
def stopRecording (r : RecorderState) : RecorderState × Option (List Nat) :=
  if r.hasRecorder && r.isRecording then
    ({ r with isRecording := false, streamHeld := false }, some r.audioChunks)
  else (r, none)

/-- Embedding of `AudioRecorder.isCurrentlyRecording`
(src/lib/audioUtils.ts lines 56-58). -/
def isCurrentlyRecording (r : RecorderState) : Bool := r.isRecording

/-- Resource state of `AudioPlayer` (src/lib/audioUtils.ts lines
187-227): the clip loaded into the audio element, the registered
completion callback, the paused flag and the play position. -/
structure PlayerRes where
  currentClip : Option Nat
  onEndCallback : Option Nat
  paused : Bool
  currentTime : Nat
deriving DecidableEq, Repr

/-- Embedding of `AudioPlayer.stop` (src/lib/audioUtils.ts lines
222-227): pause the element and reset the play position; the completion
callback is not invoked and not cleared. -/
def playerStop (p : PlayerRes) : PlayerRes :=
  { p with paused := true, currentTime := 0 }

/-- Connection state of `ConversationSocketClient`
(src/lib/socketClient.ts): the socket object and the connected flag. -/
structure SocketRes where
  socketExists : Bool
  isConnected : Bool
deriving DecidableEq, Repr

/-- Embedding of `ConversationSocketClient.disconnect`
(src/lib/socketClient.ts lines 71-77): when the socket exists,
disconnect it, null the field and clear the connected flag; otherwise do
nothing. -/
def socketDisconnect (s : SocketRes) : SocketRes :=
  if s.socketExists then { socketExists := false, isConnected := false } else s

/-- Full observable state of the conversation provider relevant to
`stopConversation` (socket variant of ConversationContext, with the
exposed flags isListening, isSpeaking, userSpeaking, isConnected). -/
structure FullState where
  detector : DetectorRes
  recorder : RecorderState
  player : PlayerRes
  socket : SocketRes
  isListening : Bool
  isSpeaking : Bool
  userSpeaking : Bool
  isConnected : Bool
deriving DecidableEq, Repr

/-- Embedding of `stopConversation` (socket ConversationContext,
src/unnamed/part_005 lines 176-201; the named
src/lib/ConversationContext.tsx lines 476-497 is identical except that
it has no socket to disconnect): stop the speech detector, stop the
recorder if it is currently recording, stop the audio player, disconnect
the socket, and clear the listening, speaking, user-speaking and
connected flags. -/
def stopConversation (s : FullState) : FullState :=
  { detector := detectorStop s.detector,
    recorder := if isCurrentlyRecording s.recorder then (stopRecording s.recorder).1
                else s.recorder,
    player := playerStop s.player,
    socket := socketDisconnect s.socket,
    isListening := false, isSpeaking := false,
    userSpeaking := false, isConnected := false }

/-- A fully live provider state, used to instantiate theorems: detector
running with a pending silence timer, recorder recording with one
buffered chunk, player mid-clip with a registered callback, socket
connected, all flags set. -/
def liveFullState : FullState :=
  { detector := ⟨some 3, true, true, true, true, true⟩,
    recorder := ⟨true, true, [5], true⟩,
    player := ⟨some 1, some 2, false, 9⟩,
    socket := ⟨true, true⟩,
    isListening := true, isSpeaking := true,
    userSpeaking := true, isConnected := true }

end Session

/-- C7: `stopConversation` is idempotent: from any state, calling it
twice yields exactly the state of calling it once, and that state is the
released Idle state: detector resources freed and timer cancelled,
recorder not recording and its stream released, player paused at
position zero, socket disconnected, and all session flags false. -/
theorem c7_stop_conversation_idempotent (s : Session.FullState)
    (hrec : s.recorder.isRecording = true → s.recorder.hasRecorder = true) :
    Session.stopConversation (Session.stopConversation s) = Session.stopConversation s ∧
    (Session.stopConversation s).detector =
      ⟨none, false, false, false, false, false⟩ ∧
    (Session.stopConversation s).recorder.isRecording = false ∧
    (Session.stopConversation s).player.paused = true ∧
    (Session.stopConversation s).player.currentTime = 0 ∧
    (Session.stopConversation s).socket.socketExists = false ∧
    (Session.stopConversation s).isListening = false ∧
    (Session.stopConversation s).isSpeaking = false ∧
    (Session.stopConversation s).userSpeaking = false ∧
    (Session.stopConversation s).isConnected = false := by
  rcases s with ⟨d, ⟨hr, ir, ch, sh⟩, p, ⟨se, ic⟩, l, sp, us, co⟩
  cases hr <;> cases ir <;> cases se <;>
    simp_all [Session.stopConversation, Session.detectorStop, Session.stopRecording,
      Session.isCurrentlyRecording, Session.playerStop, Session.socketDisconnect]

/-- C7 witness: the idempotence theorem instantiated at a fully live
state: detector running with a pending timer, recorder recording with one
chunk, player mid-clip with a registered callback, socket connected, all
flags set. -/
theorem c7_stop_conversation_idempotent_witness :
    (Session.liveFullState.recorder.isRecording = true →
      Session.liveFullState.recorder.hasRecorder = true) ∧
    Session.stopConversation (Session.stopConversation Session.liveFullState) =
      Session.stopConversation Session.liveFullState :=
  ⟨fun _ => rfl,
   (c7_stop_conversation_idempotent Session.liveFullState (fun _ => rfl)).1⟩

/-- C9: calling `stopRecording` on a recorder that is not currently
recording returns null and leaves the recorder state (recording flag,
buffered chunks, stream handle, recorder object) unchanged. -/
theorem c9_stop_recording_not_recording (r : Session.RecorderState)
    (h : r.isRecording = false) :
    Session.stopRecording r = (r, none) := by
  simp [Session.stopRecording, h]

/-- C9 witness: a recorder that exists, is not recording, still holds
two buffered chunks and a stream handle, is returned unchanged with a
null blob. -/
theorem c9_stop_recording_not_recording_witness :
    (⟨true, false, [1, 2], true⟩ : Session.RecorderState).isRecording = false ∧
    Session.stopRecording ⟨true, false, [1, 2], true⟩ =
      (⟨true, false, [1, 2], true⟩, none) :=
  ⟨by decide, c9_stop_recording_not_recording ⟨true, false, [1, 2], true⟩ (by decide)⟩

namespace Player

/-- Playback-relevant state of `AudioPlayer` (src/lib/audioUtils.ts lines
187-227): the clip currently loaded as the element's src, the single
`onEndCallback` field, and the paused flag.  Clips and callbacks are
identified by numbers. -/
structure PState where
  currentClip : Option Nat
  onEndCallback : Option Nat
  paused : Bool
deriving DecidableEq, Repr

/-- Observable playback events: `playAudio` with a clip and its
completion callback, the DOM `ended` event fired when the loaded clip
reaches its natural end, and `stop`. -/
inductive PEvent where
  | play (clip cb : Nat)
  | ended
  | stopEvt
deriving DecidableEq, Repr

def isPlay : PEvent → Bool
  | .play _ _ => true
  | _ => false

/-- One step of the player.  `playAudio` (lines 198-220) replaces the
element's src with the new clip and overwrites `onEndCallback` with the
new completion callback; the listener installed in the constructor
(lines 191-196) invokes whatever `onEndCallback` currently holds when an
`ended` event fires; `stop` (lines 222-227) pauses without invoking or
clearing the callback.  The returned list holds the callbacks invoked by
the step. -/
def pstep (s : PState) : PEvent → PState × List Nat
  | .play c cb => ({ currentClip := some c, onEndCallback := some cb, paused := false }, [])
  | .ended => (s, s.onEndCallback.toList)
  | .stopEvt => ({ s with paused := true, currentClip := s.currentClip }, [])

/-- Run a sequence of playback events, collecting every callback
invocation in order. -/
def prun (s : PState) : List PEvent → PState × List Nat
  | [] => (s, [])
  | e :: es =>
    let x := pstep s e
    let y := prun x.1 es
    (y.1, x.2 ++ y.2)

end Player

/-- Helper for C5: while no further `play` occurs, the registered
completion callback stays fixed, every invocation is that callback, and
each `ended` event does invoke it. -/
theorem prun_no_play_invocations (evs : List Player.PEvent) (s : Player.PState)
    (cb : Nat) (hcb : s.onEndCallback = some cb)
    (hnp : ∀ e ∈ evs, Player.isPlay e = false) :
    (∀ x ∈ (Player.prun s evs).2, x = cb) ∧
    (Player.PEvent.ended ∈ evs → cb ∈ (Player.prun s evs).2) := by
  induction evs generalizing s with
  | nil => simp [Player.prun]
  | cons e es ih =>
    have he := hnp e (List.mem_cons_self e es)
    have hes : ∀ x ∈ es, Player.isPlay x = false :=
      fun x hx => hnp x (List.mem_cons_of_mem e hx)
    cases e with
    | play c k => simp [Player.isPlay] at he
    | ended =>
      have := ih s hcb hes
      constructor
      · intro x hx
        simp [Player.prun, Player.pstep, hcb] at hx
        rcases hx with h | h
        · exact h
        · exact this.1 x h
      · intro _
        simp [Player.prun, Player.pstep, hcb]
    | stopEvt =>
      have hcb2 : ({ s with paused := true, currentClip := s.currentClip } :
          Player.PState).onEndCallback = some cb := hcb
      have := ih _ hcb2 hes
      constructor
      · intro x hx
        simp [Player.prun, Player.pstep] at hx
        exact this.1 x hx
      · intro hmem
        have : Player.PEvent.ended ∈ es := by
          rcases List.mem_cons.mp hmem with h | h
          · exact absurd h.symm (by simp)
          · exact h
        have h2 := ih ({ s with paused := true, currentClip := s.currentClip } :
          Player.PState) hcb2 hes
        simp [Player.prun, Player.pstep]
        exact h2.2 this

/-- C5: starting `play(B)` before `play(A)` reaches its natural end
(no `ended` event between the two plays) means A is superseded: in the
whole run, A's completion callback is never invoked, and whenever B later
reaches its natural end B's completion callback is invoked. -/
theorem c5_playback_supersede (s : Player.PState) (a ca b cb : Nat)
    (post : List Player.PEvent)
    (hpost : ∀ e ∈ post, Player.isPlay e = false) (hne : ca ≠ cb) :
    ca ∉ (Player.prun s (Player.PEvent.play a ca :: Player.PEvent.play b cb :: post)).2 ∧
    (Player.PEvent.ended ∈ post →
      cb ∈ (Player.prun s (Player.PEvent.play a ca :: Player.PEvent.play b cb :: post)).2) := by
  have hmain := prun_no_play_invocations post
    ⟨some b, some cb, false⟩ cb rfl hpost
  constructor
  · intro hmem
    simp [Player.prun, Player.pstep] at hmem
    exact hne (hmain.1 ca hmem)
  · intro hend
    simp [Player.prun, Player.pstep]
    exact hmain.2 hend

/-- C5 witness: play clip 1 with callback 10, immediately play clip 2
with callback 20, then clip 2 ends: callback 10 never fires, callback 20
fires. -/
theorem c5_playback_supersede_witness :
    ((∀ e ∈ ([Player.PEvent.ended] : List Player.PEvent), Player.isPlay e = false) ∧
      (10 : Nat) ≠ 20) ∧
    ((10 : Nat) ∉ (Player.prun ⟨none, none, true⟩
        (Player.PEvent.play 1 10 :: Player.PEvent.play 2 20 :: [Player.PEvent.ended])).2 ∧
     (Player.PEvent.ended ∈ ([Player.PEvent.ended] : List Player.PEvent) →
       (20 : Nat) ∈ (Player.prun ⟨none, none, true⟩
        (Player.PEvent.play 1 10 :: Player.PEvent.play 2 20 :: [Player.PEvent.ended])).2)) :=
  ⟨⟨by decide, by decide⟩,
   c5_playback_supersede ⟨none, none, true⟩ 1 10 2 20 [Player.PEvent.ended]
     (by decide) (by decide)⟩

namespace Msgs

/-- A conversation Message (src/lib/ConversationContext.tsx lines 5-10,
src/unnamed/part_005 lines 5-10): the id produced by
`Date.now().toString()` is modelled as the millisecond clock value; the
role is true for user, false for assistant. -/
structure Message where
  id : Nat
  role : Bool
  content : String
deriving DecidableEq, Repr

/-- Embedding of `addMessage` (src/lib/ConversationContext.tsx lines
377-387, src/unnamed/part_005 lines 100-110): append one message whose
id is the current value of the millisecond clock `Date.now()`. -/
def addMessage (msgs : List Message) (now : Nat) (role : Bool)
    (content : String) : List Message :=
  msgs ++ [⟨now, role, content⟩]

/-- A session's appends in order: each entry is the clock value at the
moment of the append together with the role and content. -/
def runAppends (entries : List (Nat × Bool × String)) : List Message :=
  entries.foldl (fun msgs e => addMessage msgs e.1 e.2.1 e.2.2) []

end Msgs

/-- Helper for C8: running the appends from any starting list yields the
starting list followed by one message per entry in order. -/
theorem foldl_addMessage_eq (entries : List (Nat × Bool × String))
    (acc : List Msgs.Message) :
    entries.foldl (fun msgs e => Msgs.addMessage msgs e.1 e.2.1 e.2.2) acc =
      acc ++ entries.map (fun e => ⟨e.1, e.2.1, e.2.2⟩) := by
  induction entries generalizing acc with
  | nil => simp
  | cons e es ih =>
    rw [List.foldl_cons, ih]
    simp [Msgs.addMessage]

/-- C8 counterexample: two distinct messages appended within the same
millisecond (the clock reads 5 at both appends, which `Date.now()`
permits) receive the same id, refuting per-session id uniqueness. -/
theorem c8_counterexample :
    Msgs.runAppends [(5, true, "hi"), (5, false, "yo")] =
      [⟨5, true, "hi"⟩, ⟨5, false, "yo"⟩] ∧
    (⟨5, true, "hi"⟩ : Msgs.Message) ≠ ⟨5, false, "yo"⟩ ∧
    (⟨5, true, "hi"⟩ : Msgs.Message).id = (⟨5, false, "yo"⟩ : Msgs.Message).id := by
  refine ⟨?_, by decide, rfl⟩
  simp [Msgs.runAppends, foldl_addMessage_eq, Msgs.addMessage]

/-- C8 amended: message ids are pairwise distinct provided the
millisecond clock strictly increases from each append to the next (no
two appends share a `Date.now()` value). -/
theorem c8_ids_unique_of_strict_clock (entries : List (Nat × Bool × String))
    (h : (entries.map Prod.fst).Chain' LT.lt) :
    (Msgs.runAppends entries).Pairwise (fun m1 m2 => m1.id ≠ m2.id) := by
  have hpw : (entries.map Prod.fst).Pairwise LT.lt := List.chain'_iff_pairwise.mp h
  have hpw2 : entries.Pairwise (fun a b => a.1 < b.1) := List.pairwise_map.mp hpw
  have : (Msgs.runAppends entries) =
      entries.map (fun e => ⟨e.1, e.2.1, e.2.2⟩) := by
    simp [Msgs.runAppends, foldl_addMessage_eq]
  rw [this, List.pairwise_map]
  exact hpw2.imp (fun hlt => Nat.ne_of_lt hlt)

/-- C8 amended, witness: a user message at clock 1 and an assistant
message at clock 2 get distinct ids. -/
theorem c8_ids_unique_witness :
    (([(1, true, "hello"), (2, false, "hi")].map Prod.fst).Chain' LT.lt) ∧
    (Msgs.runAppends [(1, true, "hello"), (2, false, "hi")]).Pairwise
      (fun m1 m2 => m1.id ≠ m2.id) :=
  ⟨by simp, c8_ids_unique_of_strict_clock [(1, true, "hello"), (2, false, "hi")]
    (by simp)⟩

namespace TextSend

/-- Session state visible to `sendMessage`
(src/lib/ConversationContext.tsx): the message list and the session
flags, including whether the speech detector is armed (`pauseListening`
stops it) and the surfaced error. -/
structure CtxState where
  messages : List Msgs.Message
  isListening : Bool
  isSpeaking : Bool
  isProcessing : Bool
  userSpeaking : Bool
  detectorArmed : Bool
  error : Option String
deriving DecidableEq, Repr

/-- Embedding of `sendMessage` (src/lib/ConversationContext.tsx lines
499-522; src/unnamed/part_005 lines 203-222 is the same up to the pause):
when the text trims to empty the function returns at once (line 500);
otherwise it appends the user message, pauses listening (stopping the
detector), sets the processing flag, and issues the chat request.  The
returned list holds the texts of the backend requests issued. -/
def sendMessage (s : CtxState) (now : Nat) (text : String) :
    CtxState × List String :=
  if blankString text then (s, [])
  else
    ({ s with
        messages := Msgs.addMessage s.messages now true text,
        detectorArmed := false, userSpeaking := false, isListening := false,
        isProcessing := true },
     [text])

end TextSend

/-- C10: calling `sendMessage` with empty or whitespace-only text is a
complete no-op: the returned state is the input state (messages, all
flags, and error unchanged) and no backend request is issued. -/
theorem c10_blank_send_message_noop (s : TextSend.CtxState) (now : Nat)
    (text : String) (h : blankString text = true) :
    TextSend.sendMessage s now text = (s, []) := by
  simp [TextSend.sendMessage, h]

/-- C10 witness: sending the whitespace-only text "   " from a live
listening state changes nothing and issues no request. -/
theorem c10_blank_send_message_noop_witness :
    blankString "   " = true ∧
    TextSend.sendMessage ⟨[⟨1, true, "hey"⟩], true, false, false, false, true, none⟩
        7 "   " =
      (⟨[⟨1, true, "hey"⟩], true, false, false, false, true, none⟩, []) :=
  ⟨by decide,
   c10_blank_send_message_noop ⟨[⟨1, true, "hey"⟩], true, false, false, false, true, none⟩
     7 "   " (by decide)⟩

namespace Detector

/-- The two callbacks of `SpeechDetector`: `onSpeechStart` and
`onSpeechEnd`. -/
inductive DEvent where
  | startEvt
  | endEvt
deriving DecidableEq, Repr

/-- Internal state of `SpeechDetector` (src/lib/audioUtils.ts lines
74-79): the `isSpeaking` flag and the pending silence timer.  The timer
is modelled in detection frames: `some k` means the timer fires after
`k` more silent frames. -/
structure DState where
  speaking : Bool
  timer : Option Nat
deriving DecidableEq, Repr

/-- One frame of `checkAudioLevel` (src/lib/audioUtils.ts lines 120-158)
at per-frame average energy `e`, with energy threshold `thr` and silence
hold `hold` (the `silenceDelay` measured in frames).  Above threshold:
set speaking, fire `onSpeechStart` when speaking was false, cancel any
pending silence timer.  At or below threshold while speaking: start the
silence timer if none is pending, otherwise let it run down; when it
expires (no above-threshold frame has intervened, since such a frame
clears it) clear speaking and fire `onSpeechEnd`. -/
def detStep (thr hold : Nat) (st : DState) (e : Nat) : DState × Option DEvent :=
  if thr < e then
    (⟨true, none⟩, if st.speaking then none else some DEvent.startEvt)
  else
    if st.speaking then
      match st.timer with
      | none => (⟨true, some hold⟩, none)
      | some k =>
        if k ≤ 1 then (⟨false, none⟩, some DEvent.endEvt)
        else (⟨true, some (k - 1)⟩, none)
    else (st, none)

/-- Detector state after processing a sequence of per-frame energies,
starting from the initial not-speaking state. -/
def stateAfter (thr hold : Nat) (xs : List Nat) : DState :=
  xs.foldl (fun st e => (detStep thr hold st e).1) ⟨false, none⟩

/-- The callback (if any) fired while processing frame `i` of the
sequence. -/
def eventAt (thr hold : Nat) (xs : List Nat) (i : Nat) : Option DEvent :=
  (detStep thr hold (stateAfter thr hold (xs.take i)) (xs.getD i 0)).2

end Detector

/-- Unfolding one frame: the state after `i + 1` frames is one step from
the state after `i` frames. -/
theorem stateAfter_succ (thr hold : Nat) (xs : List Nat) (i : Nat)
    (h : i < xs.length) :
    Detector.stateAfter thr hold (xs.take (i + 1)) =
      (Detector.detStep thr hold (Detector.stateAfter thr hold (xs.take i))
        (xs.getD i 0)).1 := by
  have h1 : xs.take (i + 1) = xs.take i ++ [xs.getD i 0] := by
    rw [List.take_succ]
    simp [List.getElem?_eq_getElem h, List.getD_eq_getElem?_getD]
  rw [h1]
  simp [Detector.stateAfter, List.foldl_append]

/-- A step whose event is `startEvt` happens on an above-threshold frame
from a not-speaking state. -/
theorem detStep_startEvt (thr hold : Nat) (st : Detector.DState) (e : Nat)
    (h : (Detector.detStep thr hold st e).2 = some Detector.DEvent.startEvt) :
    thr < e ∧ st.speaking = false := by
  rcases st with ⟨sp, tm⟩
  cases sp <;> cases tm <;>
    simp only [Detector.detStep] at h <;>
    split_ifs at h <;> simp_all

/-- A step whose event is `endEvt` happens on an at-or-below-threshold
frame from a speaking state whose silence timer is about to expire. -/
theorem detStep_endEvt (thr hold : Nat) (st : Detector.DState) (e : Nat)
    (h : (Detector.detStep thr hold st e).2 = some Detector.DEvent.endEvt) :
    e ≤ thr ∧ st.speaking = true ∧ ∃ k, st.timer = some k ∧ k ≤ 1 := by
  rcases st with ⟨sp, tm⟩
  cases sp <;> cases tm <;>
    simp only [Detector.detStep] at h <;>
    split_ifs at h <;> simp_all

/-- A step that turns the speaking flag off fires `endEvt`. -/
theorem detStep_flip (thr hold : Nat) (st : Detector.DState) (e : Nat)
    (hpre : st.speaking = true)
    (hpost : (Detector.detStep thr hold st e).1.speaking = false) :
    (Detector.detStep thr hold st e).2 = some Detector.DEvent.endEvt := by
  rcases st with ⟨sp, tm⟩
  cases sp <;> cases tm <;>
    simp only [Detector.detStep] at hpost ⊢ <;>
    split_ifs at hpost ⊢ <;> simp_all

/-- Once speaking, the flag stays on until an `endEvt` fires: between a
frame where the detector speaks and a later frame where it does not,
some frame fired `endEvt`. -/
theorem speaking_flip_interval (thr hold : Nat) (xs : List Nat) (a b : Nat)
    (hab : a ≤ b) (hb : b ≤ xs.length)
    (ha : (Detector.stateAfter thr hold (xs.take a)).speaking = true)
    (hbf : (Detector.stateAfter thr hold (xs.take b)).speaking = false) :
    ∃ k, a ≤ k ∧ k < b ∧ Detector.eventAt thr hold xs k = some Detector.DEvent.endEvt := by
  induction b with
  | zero =>
    have h0 : a = 0 := Nat.le_zero.mp hab
    rw [h0] at ha
    rw [ha] at hbf
    exact absurd hbf (by simp)
  | succ c ih =>
    by_cases hac : a = c + 1
    · rw [hac] at ha
      rw [ha] at hbf
      exact absurd hbf (by simp)
    · have hac2 : a ≤ c := Nat.lt_succ_iff.mp (Nat.lt_of_le_of_ne hab hac)
      have hc : c < xs.length := hb
      cases hsp : (Detector.stateAfter thr hold (xs.take c)).speaking with
      | false =>
        obtain ⟨k, h1, h2, h3⟩ := ih hac2 (Nat.le_of_lt hc) hsp
        exact ⟨k, h1, Nat.lt_succ_of_lt h2, h3⟩
      | true =>
        refine ⟨c, hac2, Nat.lt_succ_self c, ?_⟩
        have hstep := stateAfter_succ thr hold xs c hc
        rw [hstep] at hbf
        exact detStep_flip thr hold _ _ hsp hbf

/-- Timer invariant: whenever the silence timer holds `some k` after `n`
frames, the detector is speaking, `k` never exceeds the hold, the timer
has already run for `hold - k` frames, and every frame since it was set
(the last `hold - k + 1` frames) was at or below the threshold. -/
theorem detector_timer_inv (thr hold : Nat) (xs : List Nat) (n : Nat)
    (hn : n ≤ xs.length) (k : Nat)
    (hk : (Detector.stateAfter thr hold (xs.take n)).timer = some k) :
    (Detector.stateAfter thr hold (xs.take n)).speaking = true ∧
    k ≤ hold ∧ hold - k < n ∧
    ∀ j, n - (hold - k) - 1 ≤ j → j < n → xs.getD j 0 ≤ thr := by
  induction n generalizing k with
  | zero => simp [Detector.stateAfter] at hk
  | succ m ih =>
    have hm : m < xs.length := hn
    rw [stateAfter_succ thr hold xs m hm] at hk ⊢
    have hxg : ∃ x, xs.getD m 0 = x := ⟨xs.getD m 0, rfl⟩
    obtain ⟨x, hxg⟩ := hxg
    rw [hxg] at hk ⊢
    by_cases hloud : thr < x
    · simp [Detector.detStep, hloud] at hk
    · cases hsp : (Detector.stateAfter thr hold (xs.take m)).speaking with
      | false =>
        have hpost : (Detector.detStep thr hold
            (Detector.stateAfter thr hold (xs.take m)) x).1 =
            Detector.stateAfter thr hold (xs.take m) := by
          simp [Detector.detStep, hloud, hsp]
        rw [hpost] at hk
        obtain ⟨h1, _⟩ := ih (Nat.le_of_lt hm) k hk
        rw [hsp] at h1
        exact absurd h1 (by simp)
      | true =>
        cases htm : (Detector.stateAfter thr hold (xs.take m)).timer with
        | none =>
          have hpost : (Detector.detStep thr hold
              (Detector.stateAfter thr hold (xs.take m)) x).1 =
              ⟨true, some hold⟩ := by
            simp [Detector.detStep, hloud, hsp, htm]
          rw [hpost] at hk ⊢
          have hkh : k = hold := by simpa using hk.symm
          subst hkh
          refine ⟨rfl, Nat.le_refl k, by omega, ?_⟩
          intro j hj1 hj2
          have hjm : j = m := by omega
          rw [hjm, hxg]
          omega
        | some k0 =>
          by_cases hk1 : k0 ≤ 1
          · have hpost : (Detector.detStep thr hold
                (Detector.stateAfter thr hold (xs.take m)) x).1 =
                ⟨false, none⟩ := by
              simp [Detector.detStep, hloud, hsp, htm, hk1]
            rw [hpost] at hk
            simp at hk
          · have hpost : (Detector.detStep thr hold
                (Detector.stateAfter thr hold (xs.take m)) x).1 =
                ⟨true, some (k0 - 1)⟩ := by
              simp [Detector.detStep, hloud, hsp, htm, hk1]
            rw [hpost] at hk ⊢
            have hkk : k = k0 - 1 := by simpa using hk.symm
            obtain ⟨_, hb1, hb2, hb3⟩ := ih (Nat.le_of_lt hm) k0 htm
            refine ⟨rfl, by omega, by omega, ?_⟩
            intro j hj1 hj2
            by_cases hjm : j = m
            · rw [hjm, hxg]; omega
            · exact hb3 j (by omega) (by omega)

/-- C6: over every sequence of per-frame average energies, (a) between
two frames that fire `onSpeechStart` some strictly intermediate frame
fires `onSpeechEnd` and is at or below the threshold — so the start
callback fires at most once per maximal continuous above-threshold run —
and (b) a frame that fires `onSpeechEnd` comes only after the full
silence hold has elapsed: it is preceded by `hold` frames all at or
below the threshold, with no above-threshold frame in between. -/
theorem c6_detector_start_end_discipline (thr hold : Nat) (xs : List Nat) :
    (∀ i j, i < j → j < xs.length →
      Detector.eventAt thr hold xs i = some Detector.DEvent.startEvt →
      Detector.eventAt thr hold xs j = some Detector.DEvent.startEvt →
      ∃ k, i < k ∧ k < j ∧
        Detector.eventAt thr hold xs k = some Detector.DEvent.endEvt ∧
        xs.getD k 0 ≤ thr) ∧
    (∀ i, i < xs.length →
      Detector.eventAt thr hold xs i = some Detector.DEvent.endEvt →
      hold ≤ i ∧ ∀ j, i - hold ≤ j → j ≤ i → xs.getD j 0 ≤ thr) := by
  constructor
  · intro i j hij hj hsi hsj
    have hi : i < xs.length := Nat.lt_trans hij hj
    have hpost : (Detector.stateAfter thr hold (xs.take (i + 1))).speaking = true := by
      rw [stateAfter_succ thr hold xs i hi]
      obtain ⟨hl, _⟩ := detStep_startEvt thr hold _ _ hsi
      have hxg : ∃ x, xs.getD i 0 = x := ⟨xs.getD i 0, rfl⟩
      obtain ⟨x, hxg⟩ := hxg
      rw [hxg] at hl ⊢
      simp [Detector.detStep, hl]
    have hprej : (Detector.stateAfter thr hold (xs.take j)).speaking = false :=
      (detStep_startEvt thr hold _ _ hsj).2
    obtain ⟨k, h1, h2, h3⟩ := speaking_flip_interval thr hold xs (i + 1) j
      (Nat.succ_le_of_lt hij) (Nat.le_of_lt hj) hpost hprej
    obtain ⟨hsil, _, _⟩ := detStep_endEvt thr hold _ _ h3
    exact ⟨k, Nat.lt_of_succ_le h1, h2, h3, hsil⟩
  · intro i hi hend
    obtain ⟨hsil, hsp, k, htm, hk1⟩ := detStep_endEvt thr hold _ _ hend
    obtain ⟨_, hb1, hb2, hb3⟩ := detector_timer_inv thr hold xs i
      (Nat.le_of_lt hi) k htm
    refine ⟨by omega, ?_⟩
    intro j hj1 hj2
    by_cases hji : j = i
    · rw [hji]; exact hsil
    · exact hb3 j (by omega) (by omega)

/-- C6 witness: with threshold 15 and a two-frame hold, the sequence
20, 0, 0, 0, 20 fires `onSpeechStart` at frames 0 and 4 with the
`onSpeechEnd` at frame 3 in between, and the end at frame 3 is preceded
by the full silent hold (frames 1-3 at or below the threshold). -/
theorem c6_detector_witness :
    ((0 : Nat) < 4 ∧ 4 < ([20, 0, 0, 0, 20] : List Nat).length ∧
      Detector.eventAt 15 2 [20, 0, 0, 0, 20] 0 = some Detector.DEvent.startEvt ∧
      Detector.eventAt 15 2 [20, 0, 0, 0, 20] 4 = some Detector.DEvent.startEvt ∧
      (3 : Nat) < ([20, 0, 0, 0, 20] : List Nat).length ∧
      Detector.eventAt 15 2 [20, 0, 0, 0, 20] 3 = some Detector.DEvent.endEvt) ∧
    (∃ k, 0 < k ∧ k < 4 ∧
      Detector.eventAt 15 2 [20, 0, 0, 0, 20] k = some Detector.DEvent.endEvt ∧
      ([20, 0, 0, 0, 20] : List Nat).getD k 0 ≤ 15) ∧
    ((2 : Nat) ≤ 3 ∧ ∀ j, 3 - 2 ≤ j → j ≤ 3 →
      ([20, 0, 0, 0, 20] : List Nat).getD j 0 ≤ 15) :=
  ⟨⟨by decide, by decide, by decide, by decide, by decide, by decide⟩,
   (c6_detector_start_end_discipline 15 2 [20, 0, 0, 0, 20]).1 0 4
     (by decide) (by decide) (by decide) (by decide),
   (c6_detector_start_end_discipline 15 2 [20, 0, 0, 0, 20]).2 3
     (by decide) (by decide)⟩

namespace Coord

/-- Flag state of the turn coordinator (the ConversationProvider of
src/lib/ConversationContext.tsx, voice path): conversationActive,
isListening, isSpeaking, isProcessing, userSpeaking, whether the
SpeechDetector is armed (init has run and stop has not), whether the
recorder is recording, and whether an error message is set. -/
structure CState where
  active : Bool
  listening : Bool
  speaking : Bool
  processing : Bool
  userSpeaking : Bool
  armed : Bool
  recording : Bool
  errored : Bool
deriving DecidableEq, Repr

/-- Events driving the coordinator on the voice path: the start/stop
controls, the detector callbacks, resolution of the awaited
`sendAudioChunk` call, and the transport events with the playback
continuations of the `onAudioResponse` handler. -/
inductive CEvent where
  | startOk
  | startFail
  | stopConv
  | speechStart
  | speechEndNull
  | speechEndSent
  | sendOk
  | sendFail
  | transcriptionEvt
  | textResponseEvt
  | audioResponseEvt
  | audioFetchFail
  | playbackDone
  | errorEvt
deriving DecidableEq, Repr

/-- When each event can occur.  The start events require the Start
button to be rendered (ConversationInterface.tsx line 151: only when not
listening, not processing, not speaking).  Detector callbacks require
the detector to be armed, and a speech-end requires a prior speech-start
(the detector fires onSpeechEnd only from its own speaking state).  The
send resolution events require a pending send; server-pushed events and
playback continuations occur after the awaited send call has resolved
(sendAudioChunk resolves upon dispatching the chunk, before the server
answers), and an error event implies no reply audio is playing (a failed
exchange produced no audio, and voice exchanges do not overlap playback
in this loop). -/
def guard : CEvent → CState → Bool
  | .startOk, s => !s.listening && !s.processing && !s.speaking
  | .startFail, s => !s.listening && !s.processing && !s.speaking
  | .stopConv, _ => true
  | .speechStart, s => s.armed && !s.userSpeaking
  | .speechEndNull, s => s.armed && s.userSpeaking
  | .speechEndSent, s => s.armed && s.userSpeaking
  | .sendOk, s => s.processing && !s.speaking
  | .sendFail, s => s.processing && !s.speaking
  | .transcriptionEvt, _ => true
  | .textResponseEvt, _ => true
  | .audioResponseEvt, s => !s.processing
  | .audioFetchFail, s => s.speaking && !s.processing
  | .playbackDone, s => s.speaking && !s.processing
  | .errorEvt, s => !s.speaking

/-- Embedding of `pauseListening` (ConversationContext.tsx lines
389-400): stop the detector, stop the recorder if recording, clear
userSpeaking and isListening. -/
def pauseListening (s : CState) : CState :=
  { s with
      armed := false, recording := false, userSpeaking := false,
      listening := false }

/-- Embedding of `resumeListening` (ConversationContext.tsx lines
402-460): a no-op unless the conversation is active; otherwise re-init
the detector (arming it) and set isListening. -/
def resumeListening (s : CState) : CState :=
  if s.active then { s with armed := true, listening := true } else s

/-- The coordinator's reaction to each event, read off the handlers of
src/lib/ConversationContext.tsx lines 319-497: startConversation (462-474)
clears the error, sets conversationActive and resumes listening (or
surfaces the init failure); stopConversation (476-497) releases
everything; the detector onStart callback (412-421) sets userSpeaking
and starts recording; onEnd (423-447) clears userSpeaking, stops
recording, and for a non-null blob pauses listening, sets isProcessing
and sends; resolution of the awaited send clears isProcessing, a failed
send also surfacing the error and resuming; onTranscription and
onTextResponse (324-330) only append messages; onAudioResponse (332-365)
pauses listening and starts playback, with resumption on completion or
fetch failure; onError (367-374) surfaces the error, clears isProcessing
and resumes listening when the conversation is active. -/
def cstep : CEvent → CState → CState
  | .startOk, s => resumeListening { s with active := true, errored := false }
  | .startFail, s => { s with active := true, errored := true }
  | .stopConv, s =>
    { s with
        armed := false, recording := false, listening := false,
        speaking := false, userSpeaking := false, processing := false,
        active := false }
  | .speechStart, s => { s with userSpeaking := true, recording := true }
  | .speechEndNull, s => { s with userSpeaking := false, recording := false }
  | .speechEndSent, s => { pauseListening s with processing := true }
  | .sendOk, s => { s with processing := false }
  | .sendFail, s => resumeListening { s with errored := true, processing := false }
  | .transcriptionEvt, s => s
  | .textResponseEvt, s => s
  | .audioResponseEvt, s => { pauseListening s with speaking := true }
  | .audioFetchFail, s => resumeListening { s with speaking := false }
  | .playbackDone, s => resumeListening { s with speaking := false }
  | .errorEvt, s => resumeListening { s with errored := true, processing := false }

/-- The idle state before the conversation starts. -/
def initState : CState := ⟨false, false, false, false, false, false, false, false⟩

/-- The states the coordinator can reach from idle through guarded
events. -/
inductive Reachable : CState → Prop where
  | init : Reachable initState
  | step (e : CEvent) (s : CState) (hs : Reachable s) (hg : guard e s = true) :
      Reachable (cstep e s)

/-- The SessionState enum of the specification. -/
inductive SessionState where
  | Idle
  | Listening
  | Capturing
  | Awaiting
  | Speaking
  | ErrorState
deriving DecidableEq, Repr

/-- Mapping from the coordinator's flags to the specification's
SessionState: inactive is Idle; otherwise reply audio playing is
Speaking, a pending exchange is Awaiting, an in-progress capture is
Capturing, an armed idle listen is Listening; an active session holding
only an error is ErrorState. -/
def sessionState (s : CState) : SessionState :=
  if !s.active then .Idle
  else if s.speaking then .Speaking
  else if s.processing then .Awaiting
  else if s.userSpeaking then .Capturing
  else if s.listening then .Listening
  else if s.errored then .ErrorState
  else .Idle

/-- The inductive flag invariant: the detector is armed exactly when
isListening is set; speaking and processing each exclude isListening;
userSpeaking implies isListening; isListening implies active. -/
def flagInv (s : CState) : Bool :=
  (s.armed == s.listening) && (!s.speaking || !s.listening) &&
  (!s.processing || !s.listening) && (!s.userSpeaking || s.listening) &&
  (!s.listening || s.active)

end Coord

/-- The flag invariant holds initially and is preserved by every guarded
step. -/
theorem flagInv_step : ∀ (e : Coord.CEvent) (s : Coord.CState),
    Coord.guard e s = true → Coord.flagInv s = true →
    Coord.flagInv (Coord.cstep e s) = true := by
  intro e s hg hf
  revert hg hf
  rcases s with ⟨a, l, sp, p, us, ar, rec, er⟩
  cases e <;> cases a <;> cases l <;> cases sp <;> cases p <;> cases us <;>
    cases ar <;> cases rec <;> cases er <;> decide

/-- The flag invariant holds in every reachable state. -/
theorem flagInv_reachable (s : Coord.CState) (h : Coord.Reachable s) :
    Coord.flagInv s = true := by
  induction h with
  | init => decide
  | step e s hs hg ih => exact flagInv_step e s hg ih

/-- The armed-detector characterisation follows from the flag invariant
alone, by finite case analysis. -/
theorem armed_iff_of_flagInv : ∀ s : Coord.CState, Coord.flagInv s = true →
    ((s.armed = true ↔ (Coord.sessionState s = Coord.SessionState.Listening ∨
        Coord.sessionState s = Coord.SessionState.Capturing)) ∧
     (Coord.sessionState s = Coord.SessionState.Speaking → s.armed = false) ∧
     (Coord.sessionState s = Coord.SessionState.Awaiting → s.armed = false)) := by
  intro s hf
  revert hf
  rcases s with ⟨a, l, sp, p, us, ar, rec, er⟩
  cases a <;> cases l <;> cases sp <;> cases p <;> cases us <;> cases ar <;>
    cases rec <;> cases er <;> decide

/-- C2 counterexample: the claim as stated fails in state Capturing.
The reachable state after startConversation and the detector's
speech-start callback has the detector armed (it must stay armed to
detect the speech end) while the session state is Capturing, not
Listening. -/
theorem c2_counterexample :
    Coord.Reachable (Coord.cstep Coord.CEvent.speechStart
      (Coord.cstep Coord.CEvent.startOk Coord.initState)) ∧
    (Coord.cstep Coord.CEvent.speechStart
      (Coord.cstep Coord.CEvent.startOk Coord.initState)).armed = true ∧
    Coord.sessionState (Coord.cstep Coord.CEvent.speechStart
      (Coord.cstep Coord.CEvent.startOk Coord.initState)) =
      Coord.SessionState.Capturing ∧
    ¬ Coord.sessionState (Coord.cstep Coord.CEvent.speechStart
      (Coord.cstep Coord.CEvent.startOk Coord.initState)) =
      Coord.SessionState.Listening :=
  ⟨Coord.Reachable.step Coord.CEvent.speechStart _
      (Coord.Reachable.step Coord.CEvent.startOk _ Coord.Reachable.init (by decide))
      (by decide),
   by decide, by decide, by decide⟩

/-- C2 amended: in every reachable state of the voice-path coordinator
the detector is armed exactly when the session state is Listening or
Capturing (the detector necessarily stays armed through a capture, since
it is the component that detects the speech end); in particular it is
disarmed while the assistant's reply audio is playing (Speaking) and
while a backend exchange is pending (Awaiting). -/
theorem c2_armed_iff_listening_or_capturing (s : Coord.CState)
    (h : Coord.Reachable s) :
    (s.armed = true ↔ (Coord.sessionState s = Coord.SessionState.Listening ∨
        Coord.sessionState s = Coord.SessionState.Capturing)) ∧
    (Coord.sessionState s = Coord.SessionState.Speaking → s.armed = false) ∧
    (Coord.sessionState s = Coord.SessionState.Awaiting → s.armed = false) :=
  armed_iff_of_flagInv s (flagInv_reachable s h)

/-- C2 amended, witness: instantiated at the reachable Listening state
after startConversation. -/
theorem c2_armed_iff_witness :
    Coord.Reachable (Coord.cstep Coord.CEvent.startOk Coord.initState) ∧
    (((Coord.cstep Coord.CEvent.startOk Coord.initState).armed = true ↔
        (Coord.sessionState (Coord.cstep Coord.CEvent.startOk Coord.initState) =
            Coord.SessionState.Listening ∨
          Coord.sessionState (Coord.cstep Coord.CEvent.startOk Coord.initState) =
            Coord.SessionState.Capturing)) ∧
      (Coord.sessionState (Coord.cstep Coord.CEvent.startOk Coord.initState) =
          Coord.SessionState.Speaking →
        (Coord.cstep Coord.CEvent.startOk Coord.initState).armed = false) ∧
      (Coord.sessionState (Coord.cstep Coord.CEvent.startOk Coord.initState) =
          Coord.SessionState.Awaiting →
        (Coord.cstep Coord.CEvent.startOk Coord.initState).armed = false)) := by
  have hreach : Coord.Reachable (Coord.cstep Coord.CEvent.startOk Coord.initState) :=
    Coord.Reachable.step Coord.CEvent.startOk Coord.initState
      Coord.Reachable.init (by decide)
  exact ⟨hreach, c2_armed_iff_listening_or_capturing _ hreach⟩
